import Mathlib

/-!
Shallow embedding of the OCR batch utility:
  * main.py                      (file classification, output naming, PDF fan-out, dispatch)
  * src/tesseract/run_tesseract.py (single-item OCR processing, result serialization)
  * src/llm/run_gptAPI.py        (JSON extraction from LLM responses, spreadsheet pipeline)

Python strings are modeled as Lean `String` / `List Char`.  Machine-level
concerns that no claim touches are abstracted and documented at each
definition site (ASCII-only case folding for file extensions, float
rendering inside JSON serialization, and decimal rendering of the mean
confidence).  External effects (image decoding, the OCR engine, file
opening, the LLM API) are modeled as explicit environment parameters, and
file writes as an explicit log, so that exception propagation and the set
of files produced are observable.
-/

/-! ## Python string primitives -/

/-- ASCII lower-casing of one character. Models Python `str.lower` on the
ASCII range; the repository only lower-cases file-extension characters,
which are ASCII, so Unicode case folding is not modeled. -/
def pyLowerChar (c : Char) : Char :=
  if 'A' ≤ c ∧ c ≤ 'Z' then Char.ofNat (c.toNat + 32) else c

/-- Python `str.lower` (character-wise, see `pyLowerChar`). -/
def pyLower (s : String) : String := String.mk (s.data.map pyLowerChar)

/-- Python `str.endswith`: suffix test on the character sequence. -/
def pyEndsWith (s suf : String) : Bool := decide (suf.data <:+ s.data)

/-- Characters stripped by Python `str.strip` and matched by the regex
class `\s` (ASCII range; non-ASCII Unicode whitespace is not modeled, no
input in this development contains any). -/
def isPySpace (c : Char) : Bool :=
  c == ' ' || c == '\t' || c == '\n' || c == '\r' || c == '\x0b' || c == '\x0c'

/-- Python `str.strip` with no argument: drop whitespace from both ends. -/
def pyStrip (s : String) : String :=
  String.mk (((s.data.dropWhile isPySpace).reverse.dropWhile isPySpace).reverse)

/-- Python `str.replace old new` for a nonempty `old` (as used in the
source, where `old` is always `".txt"`): replace every non-overlapping
occurrence, scanning left to right.  The fuel only bounds recursion
depth; every step consumes at least one character, so fuel equal to the
input length (supplied by `pyReplace`) never runs out. -/
def pyReplaceCs (old new : List Char) : Nat → List Char → List Char
  | 0, l => l
  | Nat.succ fuel, l =>
    match l with
    | [] => []
    | c :: rest =>
      if old ≠ [] ∧ old.isPrefixOf (c :: rest) then
        new ++ pyReplaceCs old new fuel ((c :: rest).drop old.length)
      else
        c :: pyReplaceCs old new fuel rest

/-- Python `str.replace` on `String`s (see `pyReplaceCs`). -/
def pyReplace (s old new : String) : String :=
  String.mk (pyReplaceCs old.data new.data s.data.length s.data)

/-- Model of `os.path.join dir name` on POSIX for the shapes used by the
source (a base directory joined with a relative file name). -/
def pyJoin (dir name : String) : String :=
  if name.data.head? = some '/' then name
  else if dir = "" then name
  else if dir.data.getLast? = some '/' then dir ++ name
  else dir ++ "/" ++ name

/-- Model of `os.path.basename` on POSIX: the part after the last slash. -/
def pyBasename (p : String) : String :=
  String.mk ((p.data.reverse.takeWhile (fun c => c ≠ '/')).reverse)

/-- Index of the last occurrence of `c` in `cs`, if any (Python `str.rfind`). -/
def lastIdxOf (c : Char) (cs : List Char) : Option Nat :=
  match cs.reverse.findIdx? (fun d => d = c) with
  | none => none
  | some i => some (cs.length - 1 - i)

/-- Model of `os.path.splitext` (POSIX): split off the extension at the
last dot, provided the dot comes after the last slash and at least one
non-dot character precedes it in the file name (leading dots never start
an extension). -/
def pySplitext (p : String) : String × String :=
  let cs := p.data
  let sepIdx : Int := match lastIdxOf '/' cs with | none => -1 | some i => (i : Int)
  let dotIdx : Int := match lastIdxOf '.' cs with | none => -1 | some i => (i : Int)
  if sepIdx < dotIdx then
    let startN : Nat := (sepIdx + 1).toNat
    let dotN : Nat := dotIdx.toNat
    if ((cs.drop startN).take (dotN - startN)).any (fun c => c ≠ '.') then
      (String.mk (cs.take dotN), String.mk (cs.drop dotN))
    else (p, "")
  else (p, "")

/-- Python `f"{n:03d}"` for a natural number: left-pad the decimal digits
with zeros to width 3. -/
def pyFormat03d (n : Nat) : String :=
  let s := toString n
  if s.length < 3 then String.mk (List.replicate (3 - s.length) '0') ++ s else s

/-! ## JSON values, `json.loads` and `json.dumps`

Model of the parts of Python's `json` module used by
`extract_first_json` (`json.loads` on a string, `json.dumps` with
`ensure_ascii=False` and default separators `", "` / `": "`). -/

/-- A parsed JSON value.  Non-integral numbers keep their source token:
Python renders floats with `repr`, whose decimal formatting is a
floating-point concern abstracted here (no claim involves a float). -/
inductive JVal where
  | null
  | bool (b : Bool)
  | int (n : Int)
  | float (tok : String)
  | str (s : String)
  | arr (elems : List JVal)
  | obj (members : List (String × JVal))
deriving Repr

/-- Whitespace skipped by Python's JSON decoder (`[ \t\n\r]`). -/
def isJsonWs (c : Char) : Bool :=
  c == ' ' || c == '\t' || c == '\n' || c == '\r'

/-- Skip JSON whitespace. -/
def skipJsonWs (cs : List Char) : List Char := cs.dropWhile isJsonWs

/-- Value of a hexadecimal digit. -/
def hexVal (c : Char) : Option Nat :=
  if '0' ≤ c ∧ c ≤ '9' then some (c.toNat - 48)
  else if 'a' ≤ c ∧ c ≤ 'f' then some (c.toNat - 87)
  else if 'A' ≤ c ∧ c ≤ 'F' then some (c.toNat - 55)
  else none

/-- Decode the body of a JSON string literal (after the opening quote):
returns the decoded characters and the input remaining after the closing
quote.  Strict decoding as in `json.loads`: the eight standard escapes,
`\uXXXX` with surrogate-pair combination, and a hard error on raw control
characters.  A lone surrogate (which Python would keep as an unpaired
code unit, unrepresentable in `Char`) is rejected; no input in this
development contains one. -/
def parseJStrBody : Nat → List Char → Option (List Char × List Char)
  | 0, _ => none
  | Nat.succ fuel, cs =>
    match cs with
    | [] => none
    | c :: rest =>
      if c = '"' then some ([], rest)
      else if c = '\\' then
        match rest with
        | [] => none
        | e :: r =>
          if e = '"' then (parseJStrBody fuel r).map (fun p => ('"' :: p.1, p.2))
          else if e = '\\' then (parseJStrBody fuel r).map (fun p => ('\\' :: p.1, p.2))
          else if e = '/' then (parseJStrBody fuel r).map (fun p => ('/' :: p.1, p.2))
          else if e = 'b' then (parseJStrBody fuel r).map (fun p => ('\x08' :: p.1, p.2))
          else if e = 'f' then (parseJStrBody fuel r).map (fun p => ('\x0c' :: p.1, p.2))
          else if e = 'n' then (parseJStrBody fuel r).map (fun p => ('\n' :: p.1, p.2))
          else if e = 'r' then (parseJStrBody fuel r).map (fun p => ('\r' :: p.1, p.2))
          else if e = 't' then (parseJStrBody fuel r).map (fun p => ('\t' :: p.1, p.2))
          else if e = 'u' then
            match r with
            | h1 :: h2 :: h3 :: h4 :: r2 =>
              match hexVal h1, hexVal h2, hexVal h3, hexVal h4 with
              | some a, some b, some c3, some d =>
                let code := ((a * 16 + b) * 16 + c3) * 16 + d
                if 0xD800 ≤ code ∧ code ≤ 0xDBFF then
                  match r2 with
                  | g0 :: g1 :: k1 :: k2 :: k3 :: k4 :: r3 =>
                    if g0 = '\\' ∧ g1 = 'u' then
                      match hexVal k1, hexVal k2, hexVal k3, hexVal k4 with
                      | some a2, some b2, some c2, some d2 =>
                        let code2 := ((a2 * 16 + b2) * 16 + c2) * 16 + d2
                        if 0xDC00 ≤ code2 ∧ code2 ≤ 0xDFFF then
                          let combined := 0x10000 + (code - 0xD800) * 0x400 + (code2 - 0xDC00)
                          (parseJStrBody fuel r3).map (fun p => (Char.ofNat combined :: p.1, p.2))
                        else none
                      | _, _, _, _ => none
                    else none
                  | _ => none
                else if 0xDC00 ≤ code ∧ code ≤ 0xDFFF then none
                else (parseJStrBody fuel r2).map (fun p => (Char.ofNat code :: p.1, p.2))
              | _, _, _, _ => none
            | _ => none
          else none
      else if c.toNat < 0x20 then none
      else (parseJStrBody fuel rest).map (fun p => (c :: p.1, p.2))

/-- Numeric value of a list of decimal digit characters. -/
def digitsToNat (ds : List Char) : Nat :=
  ds.foldl (fun acc c => acc * 10 + (c.toNat - 48)) 0

/-- Parse a JSON number following the decoder's number regex
`(-?(?:0|[1-9]\d*))(\.\d+)?([eE][-+]?\d+)?` (ASCII digits; the regex's
acceptance of non-ASCII Unicode digits is not modeled).  Numbers without
fraction and exponent become `JVal.int`; others keep their token as a
`JVal.float`. -/
def parseJNumber (cs : List Char) : Option (JVal × List Char) :=
  let (neg, cs₁) :=
    match cs with
    | c :: r => if c = '-' then (true, r) else (false, cs)
    | [] => (false, cs)
  match cs₁ with
  | [] => none
  | c :: r =>
    if c = '0' then
      parseJNumberTail neg ['0'] r
    else if '1' ≤ c ∧ c ≤ '9' then
      let ds := r.takeWhile Char.isDigit
      parseJNumberTail neg (c :: ds) (r.drop ds.length)
    else none
where
  /-- Optional fraction and exponent after the integer part. -/
  parseJNumberTail (neg : Bool) (intPart : List Char) (rest : List Char) :
      Option (JVal × List Char) :=
    let (fracPart, rest₁) :=
      match rest with
      | '.' :: r2 =>
        let fd := r2.takeWhile Char.isDigit
        if fd = [] then (([] : List Char), rest)
        else ('.' :: fd, r2.drop fd.length)
      | _ => ([], rest)
    let (expPart, rest₂) :=
      match rest₁ with
      | e :: r2 =>
        if e = 'e' ∨ e = 'E' then
          match r2 with
          | s :: r3 =>
            if s = '+' ∨ s = '-' then
              let ed := r3.takeWhile Char.isDigit
              if ed = [] then (([] : List Char), rest₁)
              else (e :: s :: ed, r3.drop ed.length)
            else
              let ed := r2.takeWhile Char.isDigit
              if ed = [] then (([] : List Char), rest₁)
              else (e :: ed, r2.drop ed.length)
          | [] => ([], rest₁)
        else ([], rest₁)
      | [] => ([], rest₁)
    if fracPart = [] ∧ expPart = [] then
      let v : Int := Int.ofNat (digitsToNat intPart)
      some (JVal.int (if neg then -v else v), rest)
    else
      let tok := (if neg then ['-'] else []) ++ intPart ++ fracPart ++ expPart
      some (JVal.float (String.mk tok), rest₂)

/-- Insert a key/value pair as Python `dict` assignment does: an existing
key keeps its position and receives the new value, a new key is appended. -/
def objInsert (ms : List (String × JVal)) (k : String) (v : JVal) :
    List (String × JVal) :=
  match ms with
  | [] => [(k, v)]
  | (k', v') :: rest => if k' = k then (k', v) :: rest else (k', v') :: objInsert rest k v

/-- Parse the constants and numbers (everything but strings, objects and
arrays), in the order Python's scanner tries them. -/
def parseJAtom (cs : List Char) : Option (JVal × List Char) :=
  match cs with
  | 't' :: 'r' :: 'u' :: 'e' :: r => some (JVal.bool true, r)
  | 'f' :: 'a' :: 'l' :: 's' :: 'e' :: r => some (JVal.bool false, r)
  | 'n' :: 'u' :: 'l' :: 'l' :: r => some (JVal.null, r)
  | 'N' :: 'a' :: 'N' :: r => some (JVal.float "NaN", r)
  | 'I' :: 'n' :: 'f' :: 'i' :: 'n' :: 'i' :: 't' :: 'y' :: r =>
    some (JVal.float "Infinity", r)
  | _ =>
    match parseJNumber cs with
    | some res => some res
    | none =>
      match cs with
      | '-' :: 'I' :: 'n' :: 'f' :: 'i' :: 'n' :: 'i' :: 't' :: 'y' :: r =>
        some (JVal.float "-Infinity", r)
      | _ => none

mutual

/-- Parse one JSON value at the head of the input (no leading
whitespace).  The fuel bounds the nesting-call depth; every recursive
call strictly consumes input first, so `length + 1` fuel at the top
level never runs out. -/
def parseJValue : Nat → List Char → Option (JVal × List Char)
  | 0, _ => none
  | Nat.succ fuel, cs =>
    match cs with
    | [] => none
    | c :: rest =>
      if c = '\x7b' then
        let rest₁ := skipJsonWs rest
        match rest₁ with
        | d :: r2 => if d = '\x7d' then some (JVal.obj [], r2) else
            (parseJMembers fuel rest₁ []).map (fun p => (JVal.obj p.1, p.2))
        | [] => none
      else if c = '[' then
        let rest₁ := skipJsonWs rest
        match rest₁ with
        | d :: r2 => if d = ']' then some (JVal.arr [], r2) else
            (parseJElems fuel rest₁ []).map (fun p => (JVal.arr p.1, p.2))
        | [] => none
      else if c = '"' then
        (parseJStrBody fuel rest).map (fun p => (JVal.str (String.mk p.1), p.2))
      else parseJAtom cs

/-- Parse the members of a JSON object, positioned at a key (no leading
whitespace), accumulating into `acc`. -/
def parseJMembers (fuel : Nat) (cs : List Char) (acc : List (String × JVal)) :
    Option (List (String × JVal) × List Char) :=
  match fuel with
  | 0 => none
  | Nat.succ fuel =>
    match cs with
    | c :: rest =>
      if c = '"' then
        match parseJStrBody fuel rest with
        | none => none
        | some (kcs, r1) =>
          match skipJsonWs r1 with
          | d :: r2 =>
            if d = ':' then
              match parseJValue fuel (skipJsonWs r2) with
              | none => none
              | some (v, r3) =>
                let acc' := objInsert acc (String.mk kcs) v
                match skipJsonWs r3 with
                | e :: r4 =>
                  if e = ',' then parseJMembers fuel (skipJsonWs r4) acc'
                  else if e = '\x7d' then some (acc', r4)
                  else none
                | [] => none
            else none
          | [] => none
      else none
    | [] => none

/-- Parse the elements of a JSON array, positioned at a value (no leading
whitespace), accumulating into `acc`. -/
def parseJElems (fuel : Nat) (cs : List Char) (acc : List JVal) :
    Option (List JVal × List Char) :=
  match fuel with
  | 0 => none
  | Nat.succ fuel =>
    match parseJValue fuel cs with
    | none => none
    | some (v, r) =>
      match skipJsonWs r with
      | e :: r2 =>
        if e = ',' then parseJElems fuel (skipJsonWs r2) (acc ++ [v])
        else if e = ']' then some (acc ++ [v], r2)
        else none
      | [] => none

end

/-- Model of `json.loads` on a string: skip leading whitespace, parse one
value, skip trailing whitespace, and reject extra data.  `none` models a
raised `JSONDecodeError`. -/
def pyJsonLoads (s : String) : Option JVal :=
  let cs := skipJsonWs s.data
  match parseJValue (cs.length + 1) cs with
  | some (v, rest) => if skipJsonWs rest = [] then some v else none
  | none => none

/-- Serialization of one character inside a JSON string for
`json.dumps(..., ensure_ascii=False)`: escape the quote, the backslash,
the five short control escapes, `\u00XX` for other control characters,
and leave everything else (including non-ASCII) literal. -/
def jsonEscapeChar (c : Char) : List Char :=
  if c = '"' then ['\\', '"']
  else if c = '\\' then ['\\', '\\']
  else if c = '\n' then ['\\', 'n']
  else if c = '\r' then ['\\', 'r']
  else if c = '\t' then ['\\', 't']
  else if c = '\x08' then ['\\', 'b']
  else if c = '\x0c' then ['\\', 'f']
  else if c.toNat < 0x20 then
    let lowHexDigit := fun (n : Nat) =>
      if n < 10 then Char.ofNat (48 + n) else Char.ofNat (87 + n)
    ['\\', 'u', '0', '0', lowHexDigit (c.toNat / 16), lowHexDigit (c.toNat % 16)]
  else [c]

/-- Serialize a string as a JSON string literal (`ensure_ascii=False`). -/
def jsonQuote (s : String) : String :=
  "\"" ++ String.mk (s.data.foldr (fun c acc => jsonEscapeChar c ++ acc) []) ++ "\""

mutual

/-- Model of `json.dumps(v, ensure_ascii=False)` with the default
separators `", "` and `": "` (the call made by `extract_first_json`). -/
def pyJsonDumps : JVal → String
  | JVal.null => "null"
  | JVal.bool true => "true"
  | JVal.bool false => "false"
  | JVal.int n => toString n
  | JVal.float tok => tok
  | JVal.str s => jsonQuote s
  | JVal.arr xs => "[" ++ dumpsElems xs ++ "]"
  | JVal.obj ms => "\x7b" ++ dumpsMembers ms ++ "\x7d"

/-- Comma-separated serialization of array elements. -/
def dumpsElems : List JVal → String
  | [] => ""
  | [x] => pyJsonDumps x
  | x :: y :: rest => pyJsonDumps x ++ ", " ++ dumpsElems (y :: rest)

/-- Comma-separated serialization of object members. -/
def dumpsMembers : List (String × JVal) → String
  | [] => ""
  | [(k, v)] => jsonQuote k ++ ": " ++ pyJsonDumps v
  | (k, v) :: m :: rest => jsonQuote k ++ ": " ++ pyJsonDumps v ++ ", " ++ dumpsMembers (m :: rest)

end

/-! ## `extract_first_json` (src/llm/run_gptAPI.py) -/

/-- The backtick character (written via its code point; see the note on
string quoting conventions in this file). -/
def btick : Char := Char.ofNat 96

/-- Does the input start with three backticks? -/
def startsTicks (cs : List Char) : Bool :=
  match cs with
  | a :: b :: c :: _ => a = btick ∧ b = btick ∧ c = btick
  | _ => false

/-- Characters strictly before the first occurrence of three backticks,
or `none` when there is no such occurrence. -/
def beforeTicks : List Char → Option (List Char)
  | [] => none
  | c :: rest =>
    if startsTicks (c :: rest) then some []
    else (beforeTicks rest).map (fun g => c :: g)

/-- One attempt of the regex ` ```(?:json)?\s*([\s\S]*?)``` ` (flag
`IGNORECASE`) anchored at the head of the input: after an opening fence,
greedily take an optional case-insensitive `json` label, greedily skip
whitespace, and capture lazily up to the next closing fence.  Shrinking
the greedy parts can never create a closing fence (their characters are
never backticks), so this is the full backtracking semantics. -/
def tryFenceAt (cs : List Char) : Option (List Char) :=
  if startsTicks cs then
    let after := cs.drop 3
    let afterLabel :=
      match after with
      | a :: b :: c :: d :: rest =>
        if pyLowerChar a = 'j' ∧ pyLowerChar b = 's' ∧ pyLowerChar c = 'o' ∧ pyLowerChar d = 'n'
        then rest else after
      | _ => after
    beforeTicks (afterLabel.dropWhile isPySpace)
  else none

/-- Model of `re.search` for the fenced-block pattern: the leftmost
position at which `tryFenceAt` succeeds, returning the captured group. -/
def fencedSearch : List Char → Option (List Char)
  | [] => none
  | c :: rest =>
    match tryFenceAt (c :: rest) with
    | some g => some g
    | none => fencedSearch rest

/-- The brace-nesting scan of `extract_first_json`: walk the text
tracking `\x7b`/`\x7d` nesting depth; each time the depth returns to
zero, try to `json.loads` the balanced span; on success return its
compact re-serialization, on failure forget the span and continue; at
the end of the text return the empty string.  `text` is the whole input
(for slicing), the remaining arguments are the cursor state. -/
def braceScanGo (text : List Char) : List Char → Nat → Nat → Option Nat → String
  | [], _, _, _ => ""
  | c :: rest, idx, depth, start =>
    if c = '\x7b' then
      let start' := if depth = 0 then some idx else start
      braceScanGo text rest (idx + 1) (depth + 1) start'
    else if c = '\x7d' then
      if depth ≠ 0 then
        let depth' := depth - 1
        if depth' = 0 then
          match start with
          | some s =>
            let candidate := (text.drop s).take (idx + 1 - s)
            match pyJsonLoads (String.mk candidate) with
            | some v => pyJsonDumps v
            | none => braceScanGo text rest (idx + 1) depth' none
          | none => braceScanGo text rest (idx + 1) depth' start
        else braceScanGo text rest (idx + 1) depth' start
      else braceScanGo text rest (idx + 1) depth start
    else braceScanGo text rest (idx + 1) depth start

/-- The brace-nesting scan over a whole text. -/
def braceScan (text : String) : String :=
  braceScanGo text.data text.data 0 0 none

/-- `extract_first_json` from src/llm/run_gptAPI.py: empty input yields
the empty string; otherwise, if the fenced-block regex matches, try to
parse the (stripped) captured group and on success return its compact
re-serialization; otherwise fall back to the brace-nesting scan. -/
def extract_first_json (text : String) : String :=
  if text = "" then ""
  else
    match fencedSearch text.data with
    | some grp =>
      let candidate := pyStrip (String.mk grp)
      match pyJsonLoads candidate with
      | some parsed => pyJsonDumps parsed
      | none => braceScan text
    | none => braceScan text

/-! ## src/tesseract/run_tesseract.py -/

/-- The token table returned by `pytesseract.image_to_data(...,
output_type=Output.DICT)`, restricted to the two columns the source
reads: the per-token confidences (`data['conf']`) and texts
(`data['text']`).  Confidences are modeled as integers (DICT output
yields `int` confidences). -/
structure TessData where
  conf : List Int
  text : List String
deriving Repr, DecidableEq

/-- The input of `process_single_image`: either a file path (single-image
branch) or an in-memory page bitmap (PDF branch). -/
inductive ImageInput (Img : Type) where
  | path (p : String)
  | mem (img : Img)
deriving DecidableEq

/-- The outcome dictionary produced by `process_single_image` (and, for
the fabricated failure entry, by the dispatcher): a success carries the
OCR output file, the processed-image file and the item label; a failure
carries the error text and the item label. -/
inductive Outcome where
  | ok (output_file : String) (processed_image : String) (page_info : String)
  | fail (error : String) (page_info : String)
deriving Repr, DecidableEq

/-- The `success` field of an outcome dictionary. -/
def Outcome.success : Outcome → Bool
  | Outcome.ok _ _ _ => true
  | Outcome.fail _ _ => false

/-- The `page_info` field of an outcome dictionary. -/
def Outcome.page_info : Outcome → String
  | Outcome.ok _ _ p => p
  | Outcome.fail _ p => p

/-- Content of one file produced by the processor.  The text files'
byte-exact headers and the JSON file's `indent=2` rendering are not
themselves examined by any claim, so contents are kept structured:
`dataTxt` records the item label, the filtered human-readable extraction
list, the reported token count (`len(data['text'])`) and the reported
mean confidence (`sum(conf)/len(conf)` as an exact rational, decimal
`:.2f` rendering abstracted); `mean = none` records the file as
truncated before the mean line (the `ZeroDivisionError` case). -/
inductive FileContent (Img : Type) where
  | stringTxt (page_info : String) (text : String)
  | jsonData (data : TessData)
  | dataTxt (page_info : String) (extracted : List String) (count : Nat) (mean : Option Rat)
  | png (image : Img)
deriving DecidableEq

/-- One completed file write: destination path and content. -/
structure FileWrite (Img : Type) where
  path : String
  content : FileContent Img
deriving DecidableEq

/-- The external effects `process_single_image` runs under.  Each fallible
step of the Python code appears as an `Except`/`Option`-valued field, so
a raised exception is explicit data: `imread` returns `none` when
`cv2.imread` cannot load the path, `enhance` models
`enhance_image_quality`, `ocr_string`/`ocr_data` model the two
`pytesseract` calls, and `openErr p = some e` models `open(p, 'w')`
raising `e` (writes to an opened file are buffered and always succeed). -/
structure OcrEnv (Img : Type) where
  imread : String → Option Img
  enhance : Img → Except String Img
  ocr_string : Img → Except String String
  ocr_data : Img → Except String TessData
  openErr : String → Option String

/-- Step 2 of `process_single_image`: resolve the input to a bitmap,
raising (`.error`) the source's `ValueError` message when a path fails
to decode. -/
def resolve_image (env : OcrEnv Img) : ImageInput Img → Except String Img
  | ImageInput.path p =>
    match env.imread p with
    | none => Except.error ("이미지를 로드할 수 없습니다: " ++ p)
    | some img => Except.ok img
  | ImageInput.mem img => Except.ok img

/-- `save_string_result`: write the header plus raw OCR text to
`output_file`.  Returns the file writes performed and the exception
outcome. -/
def save_string_result (env : OcrEnv Img) (text output_file page_info : String) :
    List (FileWrite Img) × Except String Unit :=
  match env.openErr output_file with
  | some e => ([], Except.error e)
  | none => ([⟨output_file, FileContent.stringTxt page_info text⟩], Except.ok ())

/-- The human-readable extraction list of `save_data_result`: tokens with
confidence `> 0` and non-blank text after stripping, each rendered as
`[신뢰도: <conf>] <word>` (Python `zip` pairs the two columns and
truncates at the shorter). -/
def extracted_texts (data : TessData) : List String :=
  (data.conf.zip data.text).filterMap fun cw =>
    if 0 < cw.1 ∧ pyStrip cw.2 ≠ "" then
      some ("[신뢰도: " ++ toString cw.1 ++ "] " ++ cw.2)
    else none

/-- `save_data_result`: write the full token table as JSON to
`output_file.replace('.txt', '_data.json')`, then write the
human-readable text file.  The mean-confidence line divides by
`len(data['conf'])` with no guard: an empty confidence list raises
`ZeroDivisionError` (`"division by zero"`) after the JSON file is
written and after the text file has received its earlier lines. -/
def save_data_result (env : OcrEnv Img) (data : TessData) (output_file page_info : String) :
    List (FileWrite Img) × Except String Unit :=
  let json_file := pyReplace output_file ".txt" "_data.json"
  match env.openErr json_file with
  | some e => ([], Except.error e)
  | none =>
    let log₁ : List (FileWrite Img) := [⟨json_file, FileContent.jsonData data⟩]
    match env.openErr output_file with
    | some e => (log₁, Except.error e)
    | none =>
      let texts := extracted_texts data
      if data.conf.length = 0 then
        (log₁ ++ [⟨output_file, FileContent.dataTxt page_info texts data.text.length none⟩],
          Except.error "division by zero")
      else
        (log₁ ++ [⟨output_file,
            FileContent.dataTxt page_info texts data.text.length
              (some ((data.conf.sum : Rat) / (data.conf.length : Rat)))⟩],
          Except.ok ())

/-- `process_single_image`: the per-item OCR contract.  `os.makedirs(...,
exist_ok=True)` (outside the `try`) is modeled as always succeeding;
everything inside the `try` that raises is caught and converted into a
failure outcome carrying the item label, so the function is total with
result type `Outcome` (never a raw exception).  The second component is
the list of file writes performed.  `pfx` is the source's `file_prefix`
argument (renamed). -/
def process_single_image (env : OcrEnv Img) (image_input : ImageInput Img)
    (output_dir ocr_mode page_info pfx : String) : Outcome × List (FileWrite Img) :=
  match resolve_image env image_input with
  | Except.error e => (Outcome.fail e page_info, [])
  | Except.ok image =>
    match env.enhance image with
    | Except.error e => (Outcome.fail e page_info, [])
    | Except.ok enhanced_image =>
      if ocr_mode = "image_to_string" then
        match env.ocr_string enhanced_image with
        | Except.error e => (Outcome.fail e page_info, [])
        | Except.ok result =>
          let output_file := pyJoin output_dir (pfx ++ "_string.txt")
          match save_string_result env result output_file page_info with
          | (log, Except.error e) => (Outcome.fail e page_info, log)
          | (log, Except.ok _) =>
            let processed_image_file := pyJoin output_dir (pfx ++ "_processed.png")
            (Outcome.ok output_file processed_image_file page_info,
              log ++ [⟨processed_image_file, FileContent.png enhanced_image⟩])
      else if ocr_mode = "image_to_data" then
        match env.ocr_data enhanced_image with
        | Except.error e => (Outcome.fail e page_info, [])
        | Except.ok result =>
          let output_file := pyJoin output_dir (pfx ++ "_data.txt")
          match save_data_result env result output_file page_info with
          | (log, Except.error e) => (Outcome.fail e page_info, log)
          | (log, Except.ok _) =>
            let processed_image_file := pyJoin output_dir (pfx ++ "_processed.png")
            (Outcome.ok output_file processed_image_file page_info,
              log ++ [⟨processed_image_file, FileContent.png enhanced_image⟩])
      else (Outcome.fail ("지원하지 않는 OCR 모드: " ++ ocr_mode) page_info, [])

/-! ## main.py -/

/-- `is_pdf_file`: case-insensitive extension test for `.pdf`. -/
def is_pdf_file (file_path : String) : Bool :=
  pyEndsWith (pyLower file_path) ".pdf"

/-- The supported image extensions of `is_image_file`. -/
def image_extensions : List String :=
  [".png", ".jpg", ".jpeg", ".bmp", ".tiff", ".tif"]

/-- `is_image_file`: case-insensitive extension test against
`image_extensions`. -/
def is_image_file (file_path : String) : Bool :=
  image_extensions.any fun ext => pyEndsWith (pyLower file_path) ext

/-- `get_output_directory`: join `base_dir` with
`<timestamp>_<source stem>`.  The wall-clock timestamp
(`datetime.now().strftime("%y%m%d_%H%M%S")`) is an external input,
passed as the `timestamp` argument. -/
def get_output_directory (timestamp : String) (file_path : String) (base_dir : String) :
    String :=
  let filename := (pySplitext (pyBasename file_path)).1
  pyJoin base_dir (timestamp ++ "_" ++ filename)

/-- One work item of `process_pdf_parallel` (the tuple `(image,
output_dir, ocr_mode, page_info, file_prefix)`; the last field is
renamed `pfx`). -/
structure WorkItem (Img : Type) where
  image : ImageInput Img
  output_dir : String
  ocr_mode : String
  page_info : String
  pfx : String
deriving DecidableEq

/-- The task list built by `process_pdf_parallel` from `enumerate(images,
1)`: item `k` (1-based) is labeled `페이지 k` and prefixed
`page_{k:03d}`.  `k` is the 1-based counter threaded through the
recursion. -/
def pdf_tasks_from (output_dir ocr_mode : String) : Nat → List Img → List (WorkItem Img)
  | _, [] => []
  | k, img :: rest =>
    ⟨ImageInput.mem img, output_dir, ocr_mode,
      "페이지 " ++ toString k, "page_" ++ pyFormat03d k⟩ ::
      pdf_tasks_from output_dir ocr_mode (k + 1) rest

/-- The full task list for a page list (enumeration starts at 1). -/
def pdf_tasks (images : List Img) (output_dir ocr_mode : String) : List (WorkItem Img) :=
  pdf_tasks_from output_dir ocr_mode 1 images

/-- The `future.result()` retrieval step of the dispatcher's collection
loop: a raised exception (`.error`) is caught and converted into a
fabricated failure outcome carrying the item's label. -/
def futureStep (proc : WorkItem Img → Except String Outcome) (t : WorkItem Img) : Outcome :=
  match proc t with
  | Except.ok r => r
  | Except.error e => Outcome.fail e t.page_info

/-- The results list collected by the `as_completed` loop.  Thread-pool
completion order is nondeterministic; it is modeled by the index list
`order` (a permutation of the task indices in any theorem about a real
run), and each completed future contributes one outcome. -/
def runOrdered (proc : WorkItem Img → Except String Outcome)
    (tasks : List (WorkItem Img)) (order : List Nat) : List Outcome :=
  order.filterMap fun i => (tasks.get? i).map (futureStep proc)

/-- `process_pdf_parallel`: `converted` is the result of
`convert_pdf_to_images` (`none` models the rasterizer raising, which
that helper converts to `None`).  Build one task per page, collect all
outcomes in completion order, count successes, and return the output
directory when at least one item succeeded, `None` otherwise. -/
def process_pdf_parallel (proc : WorkItem Img → Except String Outcome)
    (converted : Option (List Img)) (order : List Nat)
    (output_dir ocr_mode : String) : Option String :=
  match converted with
  | none => none
  | some images =>
    let tasks := pdf_tasks images output_dir ocr_mode
    let results := runOrdered proc tasks order
    if 0 < results.countP (fun r => r.success) then some output_dir else none

/-- The per-item processor as submitted to the pool by `process_file`'s
PDF branch: `process_single_image` is total (its `try` catches
everything), so `future.result()` never raises for it and the step is
always `Except.ok`. -/
def imgProc (env : OcrEnv Img) (t : WorkItem Img) : Except String Outcome :=
  Except.ok (process_single_image env t.image t.output_dir t.ocr_mode t.page_info t.pfx).1

/-- `process_image_file`: build the single work item named after the
file's stem and return the output directory exactly when the item
succeeded. -/
def process_image_file (env : OcrEnv Img) (image_path output_dir ocr_mode : String) :
    Option String :=
  let filename := (pySplitext (pyBasename image_path)).1
  let result := (process_single_image env (ImageInput.path image_path)
    output_dir ocr_mode filename filename).1
  if result.success then some output_dir else none

/-- `process_file`: pre-flight existence check (`fileExists` models
`os.path.exists`), output-directory naming, then classification by
extension into the PDF branch, the single-image branch, or an
unsupported-format failure.  `_max_workers` only sizes the thread pool
and does not affect the modeled observables. -/
def process_file (env : OcrEnv Img) (converted : Option (List Img)) (order : List Nat)
    (fileExists : Bool) (timestamp file_path ocr_mode : String) (_max_workers : Nat) :
    Option String :=
  if fileExists = false then none
  else
    let output_dir := get_output_directory timestamp file_path "test_result"
    if is_pdf_file file_path then
      process_pdf_parallel (imgProc env) converted order output_dir ocr_mode
    else if is_image_file file_path then
      process_image_file env file_path output_dir ocr_mode
    else none

/-! ## src/llm/run_gptAPI.py : `process_excel` -/

/-- The worksheet: `maxRow` models `ws.max_row`; `cell r c` the value of
the cell at 1-based row `r`, column `c` (`none` = empty cell).  Cell
values are modeled as the strings `str(value)` produces — the claims
only concern blankness after trimming and the written results, so the
`str()` conversion of non-string cell values is the identity here. -/
structure Sheet where
  maxRow : Nat
  cell : Nat → Nat → Option String

/-- The fixed instruction of `process_excel`. -/
def instruction : String := "키-값 쌍으로 JSON 뽑아줘"

/-- A source cell's text after `str(...).strip()`, with `None` cells
becoming the empty string. -/
def cellText (ws : Sheet) (r c : Nat) : String :=
  match ws.cell r c with
  | none => ""
  | some v => pyStrip v

/-- The prompt built for one non-blank source cell. -/
def mkPrompt (t : String) : String := instruction ++ "\n\n원문:\n" ++ t

/-- The tasks of one data row: column B (2) writes to C (3), column D
(4) writes to E (5), each only when the source text is non-blank. -/
def rowTasks (ws : Sheet) (r : Nat) : List (Nat × Nat × String) :=
  (if cellText ws r 2 ≠ "" then [(r, 3, mkPrompt (cellText ws r 2))] else []) ++
    (if cellText ws r 4 ≠ "" then [(r, 5, mkPrompt (cellText ws r 4))] else [])

/-- The task list of `process_excel`: rows `2 .. ws.max_row` in order,
two candidate source cells per row. -/
def excel_tasks (ws : Sheet) : List (Nat × Nat × String) :=
  (List.range' 2 (ws.maxRow - 1)).flatMap (rowTasks ws)

/-- The LLM call for one task, indexed by the full task triple:
`Except.error e` models `run_gpt5` (or the future) raising with message
`e`, `Except.ok resp` a returned response text. -/
def LlmRun : Type := Nat × Nat × String → Except String String

/-- The string written into a task's target cell: the extracted JSON of
a successful response, or the `ERROR:` marker of a raised exception. -/
def taskResult (llm : LlmRun) (t : Nat × Nat × String) : String :=
  match llm t with
  | Except.ok resp => extract_first_json resp
  | Except.error e => "ERROR: " ++ e

/-- Write one completed task's result into its target cell. -/
def applyTask (llm : LlmRun) (ws : Sheet) (t : Nat × Nat × String) : Sheet :=
  { ws with cell := fun r c =>
      if r = t.1 ∧ c = t.2.1 then some (taskResult llm t) else ws.cell r c }

/-- `process_excel`: build all tasks from the loaded sheet, run them
through the pool, write each result into its target cell as it
completes (completion order modeled by the index list `order`), and
return the workbook as saved by the single `wb.save` call after all
tasks finish. -/
def process_excel (llm : LlmRun) (order : List Nat) (ws : Sheet) : Sheet :=
  let tasks := excel_tasks ws
  (order.filterMap fun i => tasks.get? i).foldl (applyTask llm) ws

/-- The (row, target column) pair a task writes to. -/
def taskKey (t : Nat × Nat × String) : Nat × Nat := (t.1, t.2.1)

/-! ## Concrete sample environments

Closed instantiations of the abstract effect parameters, used by the
closed-instance theorems below. -/

/-- An environment in which every step succeeds; structured OCR yields a
one-token table. -/
def ocrEnvSample : OcrEnv Unit where
  imread := fun _ => some ()
  enhance := fun i => Except.ok i
  ocr_string := fun _ => Except.ok "hello"
  ocr_data := fun _ => Except.ok ⟨[55], ["hi"]⟩
  openErr := fun _ => none

/-- An environment in which `cv2.imread` fails on every path. -/
def ocrEnvNoLoad : OcrEnv Unit where
  imread := fun _ => none
  enhance := fun i => Except.ok i
  ocr_string := fun _ => Except.ok "hello"
  ocr_data := fun _ => Except.ok ⟨[55], ["hi"]⟩
  openErr := fun _ => none

/-- An environment in which structured OCR returns an empty token table. -/
def ocrEnvEmptyTable : OcrEnv Unit where
  imread := fun _ => some ()
  enhance := fun i => Except.ok i
  ocr_string := fun _ => Except.ok "hello"
  ocr_data := fun _ => Except.ok ⟨[], []⟩
  openErr := fun _ => none

/-- The spec's confidence-filtering example table. -/
def dataEx : TessData := ⟨[-1, 0, 55, 91], ["", "foo", "bar", "baz"]⟩

/-- A per-item processor that succeeds on the first page and raises on
every other item. -/
def procMixed : WorkItem Unit → Except String Outcome := fun t =>
  if t.pfx = "page_001" then Except.ok (Outcome.ok "f" "g" t.page_info)
  else Except.error "boom"

/-- A per-item processor that succeeds on every item. -/
def procOkAll : WorkItem Unit → Except String Outcome := fun t =>
  Except.ok (Outcome.ok "f" "g" t.page_info)

/-- A two-row worksheet with a single non-blank source cell at B2. -/
def sheetSample : Sheet where
  maxRow := 2
  cell := fun r c => if r = 2 ∧ c = 2 then some "hello" else none

/-- An LLM run that raises on the C2 target task. -/
def llmSample : LlmRun := fun t =>
  if t.1 = 2 ∧ t.2.1 = 3 then Except.error "boom" else Except.ok "x"

/-! ## Shared list lemmas -/

/-- Looking up every index of `l` in order and post-processing with `g`
is just `l.map g`. -/
theorem filterMap_get?_range (l : List α) (g : α → β) :
    (List.range l.length).filterMap (fun i => (l.get? i).map g) = l.map g := by
  induction l with
  | nil => rfl
  | cons a t ih =>
    simp only [List.length_cons, List.range_succ_eq_map, List.filterMap_cons,
      List.filterMap_map]
    exact congrArg (g a :: ·) ih

/-- Looking up every index of `l` in order is just `l`. -/
theorem filterMap_get?_range' (l : List α) :
    (List.range l.length).filterMap (fun i => l.get? i) = l := by
  have h := filterMap_get?_range l id
  simp only [Option.map_id, id_eq] at h
  simpa using h

/-- Collecting outcomes in any completion order that is a permutation of
the task indices yields a permutation of the per-task outcomes. -/
theorem runOrdered_perm (proc : WorkItem Img → Except String Outcome)
    (tasks : List (WorkItem Img)) {order : List Nat}
    (h : order.Perm (List.range tasks.length)) :
    (runOrdered proc tasks order).Perm (tasks.map (futureStep proc)) := by
  unfold runOrdered
  have h2 := List.Perm.filterMap (fun i => (tasks.get? i).map (futureStep proc)) h
  rwa [filterMap_get?_range] at h2

/-! ## C4: `extract_first_json` -/

/-- A character other than a backtick never starts a fence. -/
theorem startsTicks_eq_false {c : Char} (hc : c ≠ btick) (rest : List Char) :
    startsTicks (c :: rest) = false := by
  match rest with
  | [] => rfl
  | [b] => rfl
  | b :: d :: r => exact decide_eq_false (by simp [hc])

/-- A text without backticks has no fenced-block match. -/
theorem fencedSearch_eq_none {cs : List Char} (h : ∀ c ∈ cs, c ≠ btick) :
    fencedSearch cs = none := by
  induction cs with
  | nil => rfl
  | cons c rest ih =>
    have hticks := startsTicks_eq_false (h c (List.mem_cons_self c rest)) rest
    have htry : tryFenceAt (c :: rest) = none := by
      unfold tryFenceAt
      rw [hticks]
      rfl
    unfold fencedSearch
    rw [htry]
    exact ih fun d hd => h d (List.mem_cons_of_mem c hd)

/-- The brace scan of a text without opening braces, at depth 0 with no
recorded start, returns the empty string. -/
theorem braceScanGo_no_brace (text : List Char) :
    ∀ rem : List Char, (∀ c ∈ rem, c ≠ '\x7b') →
      ∀ idx : Nat, braceScanGo text rem idx 0 none = "" := by
  intro rem
  induction rem with
  | nil => intro _ _; rfl
  | cons c rest ih =>
    intro h idx
    have hc : c ≠ '\x7b' := h c (List.mem_cons_self c rest)
    have hrest : ∀ d ∈ rest, d ≠ '\x7b' := fun d hd => h d (List.mem_cons_of_mem c hd)
    unfold braceScanGo
    rw [if_neg hc]
    by_cases hd : c = '\x7d'
    · rw [if_pos hd]
      simp only [ne_eq, not_true_eq_false, if_false]
      exact ih hrest (idx + 1)
    · rw [if_neg hd]
      exact ih hrest (idx + 1)

/-- C4, counterexample: the claim says a text containing no braces
yields the empty string, but the input `"``` 42 ```"` contains no brace
and still yields `"42"`, because the fenced-block regex makes the
`json` label optional and the fence's contents parse as the JSON value
`42`. -/
theorem extract_first_json_counterexample :
    (∀ c ∈ ("``` 42 ```" : String).data, c ≠ '\x7b') ∧
      extract_first_json "``` 42 ```" ≠ "" := by
  constructor
  · decide
  · decide

/-- C4 (amended): `extract_first_json` returns the compact
re-serialization (non-ASCII unescaped) of the contents of the first
fenced code block — whose `json` label is optional and case-insensitive —
when present and parseable as a JSON value; otherwise the first balanced
brace span that parses as JSON, re-serialized compactly; otherwise the
empty string.  Consequently: a ```` ```json ````-fenced object is
returned compactly; text with neither braces nor backticks returns the
empty string; text with unbalanced braces returns the empty string; an
object embedded in prose is returned with the prose ignored; and an
unlabeled fence whose contents parse (even as a non-object) is returned
in preference to the brace scan. -/
theorem extract_first_json_spec :
    extract_first_json "```json\n\x7b\"a\":1\x7d\n```" = "\x7b\"a\": 1\x7d"
    ∧ (∀ text : String, (∀ c ∈ text.data, c ≠ '\x7b' ∧ c ≠ btick) →
        extract_first_json text = "")
    ∧ extract_first_json "\x7b\"a\": 1" = ""
    ∧ extract_first_json "here you go: \x7b\"x\": \"y\"\x7d thanks" = "\x7b\"x\": \"y\"\x7d"
    ∧ extract_first_json "``` 42 ```" = "42" := by
  refine ⟨by decide, ?_, by decide, by decide, by decide⟩
  intro text h
  unfold extract_first_json
  by_cases he : text = ""
  · rw [if_pos he]
  · rw [if_neg he]
    rw [fencedSearch_eq_none fun c hc => (h c hc).2]
    exact braceScanGo_no_brace text.data text.data (fun c hc => (h c hc).1) 0

/-- C4 witness: the no-brace/no-backtick clause applied to a concrete
plain text. -/
theorem extract_first_json_spec_witness :
    (∀ c ∈ ("plain text, no json" : String).data, c ≠ '\x7b' ∧ c ≠ btick) ∧
      extract_first_json "plain text, no json" = "" :=
  ⟨by decide, extract_first_json_spec.2.1 "plain text, no json" (by decide)⟩

/-! ## C6: confidence filtering and summary statistics -/

/-- C6: in structured mode the human-readable extraction list contains
exactly the zipped tokens whose confidence is positive and whose text is
non-blank after stripping, each annotated with its confidence; the
written summary reports `len(data['text'])` as the token count and the
mean confidence over all confidences (filtered-out tokens included); and
the spec's example table yields exactly the `bar` and `baz` entries. -/
theorem save_data_result_confidence_filtering :
    (∀ (data : TessData) (s : String),
        s ∈ extracted_texts data ↔ ∃ cw ∈ data.conf.zip data.text,
          0 < cw.1 ∧ pyStrip cw.2 ≠ "" ∧
            s = "[신뢰도: " ++ toString cw.1 ++ "] " ++ cw.2)
    ∧ (∀ (Img : Type) (env : OcrEnv Img) (data : TessData) (output_file page_info : String),
        env.openErr (pyReplace output_file ".txt" "_data.json") = none →
        env.openErr output_file = none →
        data.conf ≠ [] →
        save_data_result env data output_file page_info =
          ([⟨pyReplace output_file ".txt" "_data.json", FileContent.jsonData data⟩,
            ⟨output_file,
              FileContent.dataTxt page_info (extracted_texts data) data.text.length
                (some ((data.conf.sum : Rat) / (data.conf.length : Rat)))⟩],
            Except.ok ()))
    ∧ extracted_texts dataEx = ["[신뢰도: 55] bar", "[신뢰도: 91] baz"] := by
  refine ⟨?_, ?_, by decide⟩
  · intro data s
    unfold extracted_texts
    rw [List.mem_filterMap]
    constructor
    · rintro ⟨cw, hmem, heq⟩
      by_cases hc : 0 < cw.1 ∧ pyStrip cw.2 ≠ ""
      · rw [if_pos hc, Option.some.injEq] at heq
        exact ⟨cw, hmem, hc.1, hc.2, heq.symm⟩
      · rw [if_neg hc] at heq
        cases heq
    · rintro ⟨cw, hmem, h1, h2, rfl⟩
      exact ⟨cw, hmem, if_pos ⟨h1, h2⟩⟩
  · intro Img env data output_file page_info h1 h2 h3
    have hlen : ¬ data.conf.length = 0 := fun h => h3 (List.length_eq_zero.mp h)
    simp only [save_data_result, h1, h2, if_neg hlen]
    rfl

/-- C6 witness: the summary-statistics clause applied to the example
table (token count 4, mean over all four confidences). -/
theorem save_data_result_confidence_filtering_witness :
    save_data_result ocrEnvSample dataEx "out/x_data.txt" "p" =
      ([⟨pyReplace "out/x_data.txt" ".txt" "_data.json", FileContent.jsonData dataEx⟩,
        ⟨"out/x_data.txt",
          FileContent.dataTxt "p" (extracted_texts dataEx) dataEx.text.length
            (some ((dataEx.conf.sum : Rat) / (dataEx.conf.length : Rat)))⟩],
        Except.ok ()) :=
  save_data_result_confidence_filtering.2.1 Unit ocrEnvSample dataEx "out/x_data.txt" "p"
    rfl rfl (by decide)

/-! ## C10: the unguarded mean over an empty token table -/

/-- C10: when structured OCR returns an empty token table, the mean
confidence divides by zero; the resulting exception is caught at the
processor boundary, the item outcome is a failure carrying the label and
`"division by zero"`, and the full-table JSON file (and a truncated text
file, cut before the mean line) has already been written. -/
theorem empty_table_division_by_zero :
    ∀ (Img : Type) (env : OcrEnv Img) (input : ImageInput Img) (img enh : Img)
      (output_dir page_info pfx : String),
      resolve_image env input = Except.ok img →
      env.enhance img = Except.ok enh →
      env.ocr_data enh = Except.ok ⟨[], []⟩ →
      env.openErr (pyReplace (pyJoin output_dir (pfx ++ "_data.txt")) ".txt" "_data.json") = none →
      env.openErr (pyJoin output_dir (pfx ++ "_data.txt")) = none →
      process_single_image env input output_dir "image_to_data" page_info pfx =
        (Outcome.fail "division by zero" page_info,
          [⟨pyReplace (pyJoin output_dir (pfx ++ "_data.txt")) ".txt" "_data.json",
              FileContent.jsonData ⟨[], []⟩⟩,
            ⟨pyJoin output_dir (pfx ++ "_data.txt"),
              FileContent.dataTxt page_info [] 0 none⟩]) := by
  intro Img env input img enh output_dir page_info pfx hres henh hocr hjson htxt
  simp only [process_single_image, hres, henh, hocr, if_true, if_false,
    save_data_result, hjson, htxt]
  rfl

/-- C10 witness: a concrete empty-table run. -/
theorem empty_table_division_by_zero_witness :
    process_single_image ocrEnvEmptyTable (ImageInput.mem ()) "out" "image_to_data" "페이지 1" "page_001" =
      (Outcome.fail "division by zero" "페이지 1",
        [⟨pyReplace (pyJoin "out" ("page_001" ++ "_data.txt")) ".txt" "_data.json",
            FileContent.jsonData ⟨[], []⟩⟩,
          ⟨pyJoin "out" ("page_001" ++ "_data.txt"),
            FileContent.dataTxt "페이지 1" [] 0 none⟩]) :=
  empty_table_division_by_zero Unit ocrEnvEmptyTable (ImageInput.mem ()) () ()
    "out" "페이지 1" "page_001" rfl rfl rfl rfl rfl

/-! ## C5: failure isolation in `process_single_image` -/

/-- C5: every failure arising inside the processor's `try` (image
decode, enhancement, OCR dispatch including an unsupported mode value,
opening a result file) is caught and converted into a failure outcome
carrying the item label and the error text; the outcome's label always
equals the item's label, and no raw exception escapes (the function is
total into `Outcome`). -/
theorem process_single_image_isolation :
    ∀ (Img : Type) (env : OcrEnv Img) (input : ImageInput Img)
      (output_dir ocr_mode page_info pfx : String),
      ((process_single_image env input output_dir ocr_mode page_info pfx).1).page_info = page_info
      ∧ (∀ e, resolve_image env input = Except.error e →
          (process_single_image env input output_dir ocr_mode page_info pfx).1 =
            Outcome.fail e page_info)
      ∧ (∀ img e, resolve_image env input = Except.ok img →
          env.enhance img = Except.error e →
          (process_single_image env input output_dir ocr_mode page_info pfx).1 =
            Outcome.fail e page_info)
      ∧ (∀ img enh e, resolve_image env input = Except.ok img →
          env.enhance img = Except.ok enh →
          env.ocr_string enh = Except.error e →
          (process_single_image env input output_dir "image_to_string" page_info pfx).1 =
            Outcome.fail e page_info)
      ∧ (∀ img enh e, resolve_image env input = Except.ok img →
          env.enhance img = Except.ok enh →
          env.ocr_data enh = Except.error e →
          (process_single_image env input output_dir "image_to_data" page_info pfx).1 =
            Outcome.fail e page_info)
      ∧ (∀ img enh text e, resolve_image env input = Except.ok img →
          env.enhance img = Except.ok enh →
          env.ocr_string enh = Except.ok text →
          env.openErr (pyJoin output_dir (pfx ++ "_string.txt")) = some e →
          (process_single_image env input output_dir "image_to_string" page_info pfx).1 =
            Outcome.fail e page_info)
      ∧ (∀ img enh, resolve_image env input = Except.ok img →
          env.enhance img = Except.ok enh →
          ocr_mode ≠ "image_to_string" → ocr_mode ≠ "image_to_data" →
          (process_single_image env input output_dir ocr_mode page_info pfx).1 =
            Outcome.fail ("지원하지 않는 OCR 모드: " ++ ocr_mode) page_info) := by
  intro Img env input output_dir ocr_mode page_info pfx
  refine ⟨?_, ?_, ?_, ?_, ?_, ?_, ?_⟩
  · simp only [process_single_image]
    repeat' split
    all_goals rfl
  · intro e h
    simp only [process_single_image, h]
  · intro img e hres henh
    simp only [process_single_image, hres, henh]
  · intro img enh e hres henh hocr
    simp only [process_single_image, hres, henh, hocr, if_true, if_false]
  · intro img enh e hres henh hocr
    simp only [process_single_image, hres, henh, hocr, if_true, if_false]
    rfl
  · intro img enh text e hres henh hocr hopen
    simp only [process_single_image, hres, henh, hocr, if_true, if_false,
      save_string_result, hopen]
  · intro img enh hres henh hs hd
    simp only [process_single_image, hres, henh]
    rw [if_neg hs, if_neg hd]

/-- C5 witness: the decode-failure clause at a concrete path that fails
to load. -/
theorem process_single_image_isolation_witness :
    (process_single_image ocrEnvNoLoad (ImageInput.path "missing.png") "out" "image_to_data" "item1" "item1").1 =
      Outcome.fail ("이미지를 로드할 수 없습니다: " ++ "missing.png") "item1" :=
  (process_single_image_isolation Unit ocrEnvNoLoad (ImageInput.path "missing.png")
      "out" "image_to_data" "item1" "item1").2.1
    ("이미지를 로드할 수 없습니다: " ++ "missing.png") rfl

/-! ## C3: the files a successful item writes -/

/-- C3, counterexample: a successful structured-mode item for prefix
`page_001` writes `out/page_001_data_data.json` (the source computes the
JSON name by replacing `".txt"` with `"_data.json"` inside
`page_001_data.txt`), so no file named `out/page_001_data.json` is
produced, contradicting the claimed `<prefix>_data.json` layout. -/
theorem process_single_image_output_paths_counterexample :
    ((process_single_image ocrEnvSample (ImageInput.mem ()) "out" "image_to_data" "페이지 1" "page_001").1).success = true
    ∧ List.map FileWrite.path
        (process_single_image ocrEnvSample (ImageInput.mem ()) "out" "image_to_data" "페이지 1" "page_001").2 =
        ["out/page_001_data_data.json", "out/page_001_data.txt", "out/page_001_processed.png"]
    ∧ "out/page_001_data.json" ∉
        List.map FileWrite.path
          (process_single_image ocrEnvSample (ImageInput.mem ()) "out" "image_to_data" "페이지 1" "page_001").2 :=
  ⟨by decide, by decide, by decide⟩

/-- C3 (amended): a successful structured-mode item writes exactly, in
order, `<prefix>_data_data.json` (named by replacing `".txt"` with
`"_data.json"` in the `<prefix>_data.txt` path), `<prefix>_data.txt`,
and `<prefix>_processed.png`; a successful plain-text item writes
exactly `<prefix>_string.txt` and `<prefix>_processed.png`. -/
theorem process_single_image_output_paths :
    ∀ (Img : Type) (env : OcrEnv Img) (input : ImageInput Img) (img enh : Img)
      (output_dir page_info pfx : String),
      resolve_image env input = Except.ok img →
      env.enhance img = Except.ok enh →
      (∀ data, env.ocr_data enh = Except.ok data → data.conf ≠ [] →
        env.openErr (pyReplace (pyJoin output_dir (pfx ++ "_data.txt")) ".txt" "_data.json") = none →
        env.openErr (pyJoin output_dir (pfx ++ "_data.txt")) = none →
        List.map FileWrite.path
          (process_single_image env input output_dir "image_to_data" page_info pfx).2 =
          [pyReplace (pyJoin output_dir (pfx ++ "_data.txt")) ".txt" "_data.json",
            pyJoin output_dir (pfx ++ "_data.txt"),
            pyJoin output_dir (pfx ++ "_processed.png")])
      ∧ (∀ text, env.ocr_string enh = Except.ok text →
          env.openErr (pyJoin output_dir (pfx ++ "_string.txt")) = none →
          List.map FileWrite.path
            (process_single_image env input output_dir "image_to_string" page_info pfx).2 =
            [pyJoin output_dir (pfx ++ "_string.txt"),
              pyJoin output_dir (pfx ++ "_processed.png")]) := by
  intro Img env input img enh output_dir page_info pfx hres henh
  constructor
  · intro data hocr hconf hjson htxt
    have hlen : ¬ data.conf.length = 0 := fun h => hconf (List.length_eq_zero.mp h)
    simp only [process_single_image, hres, henh, hocr, if_true, if_false,
      save_data_result, hjson, htxt, if_neg hlen]
    rfl
  · intro text hocr hopen
    simp only [process_single_image, hres, henh, hocr, if_true, if_false,
      save_string_result, hopen]
    rfl

/-- C3 witness: the plain-text clause at a concrete successful run. -/
theorem process_single_image_output_paths_witness :
    List.map FileWrite.path
      (process_single_image ocrEnvSample (ImageInput.mem ()) "out" "image_to_string" "페이지 1" "page_001").2 =
      [pyJoin "out" ("page_001" ++ "_string.txt"), pyJoin "out" ("page_001" ++ "_processed.png")] :=
  (process_single_image_output_paths Unit ocrEnvSample (ImageInput.mem ()) () ()
      "out" "페이지 1" "page_001" rfl rfl).2 "hello" rfl rfl

/-! ## C7: one task per page, prefixes fixed at submission time -/

/-- The task list is as long as the page list. -/
theorem pdf_tasks_from_length (output_dir ocr_mode : String) :
    ∀ (k : Nat) (l : List Img), (pdf_tasks_from output_dir ocr_mode k l).length = l.length := by
  intro k l
  induction l generalizing k with
  | nil => rfl
  | cons a t ih => simp [pdf_tasks_from, ih]

/-- The `i`-th task of the list built from counter `k` is labeled and
prefixed with page number `k + i`. -/
theorem pdf_tasks_from_get? (output_dir ocr_mode : String) :
    ∀ (k i : Nat) (l : List Img),
      (pdf_tasks_from output_dir ocr_mode k l).get? i =
        (l.get? i).map fun img =>
          ⟨ImageInput.mem img, output_dir, ocr_mode,
            "페이지 " ++ toString (k + i), "page_" ++ pyFormat03d (k + i)⟩ := by
  intro k i l
  induction l generalizing k i with
  | nil => rfl
  | cons a t ih =>
    cases i with
    | zero => simp [pdf_tasks_from]
    | succ j =>
      have h : k + 1 + j = k + (j + 1) := by omega
      simp only [pdf_tasks_from, List.get?_cons_succ]
      rw [ih (k + 1) j, h]

/-- C7: a PDF rasterized to `N` pages yields exactly `N` work items;
item `i` (0-based) is labeled `페이지 (i+1)` and prefixed
`page_` followed by `i+1` zero-padded to three digits; and the prefixes
are fixed by the task list built at submission time, so the collected
outcome multiset is the same for every completion order. -/
theorem pdf_task_construction :
    ∀ (Img : Type) (images : List Img) (output_dir ocr_mode : String),
      (pdf_tasks images output_dir ocr_mode).length = images.length
      ∧ (∀ i : Nat,
          (pdf_tasks images output_dir ocr_mode).get? i =
            (images.get? i).map fun img =>
              ⟨ImageInput.mem img, output_dir, ocr_mode,
                "페이지 " ++ toString (i + 1), "page_" ++ pyFormat03d (i + 1)⟩)
      ∧ (∀ (proc : WorkItem Img → Except String Outcome) (order₁ order₂ : List Nat),
          order₁.Perm (List.range (pdf_tasks images output_dir ocr_mode).length) →
          order₂.Perm (List.range (pdf_tasks images output_dir ocr_mode).length) →
          (runOrdered proc (pdf_tasks images output_dir ocr_mode) order₁).Perm
            (runOrdered proc (pdf_tasks images output_dir ocr_mode) order₂)) := by
  intro Img images output_dir ocr_mode
  refine ⟨pdf_tasks_from_length output_dir ocr_mode 1 images, ?_, ?_⟩
  · intro i
    unfold pdf_tasks
    rw [pdf_tasks_from_get?]
    have h : 1 + i = i + 1 := Nat.add_comm 1 i
    rw [h]
  · intro proc order₁ order₂ h₁ h₂
    exact (runOrdered_perm proc _ h₁).trans (runOrdered_perm proc _ h₂).symm

/-- C7 witness: the second of two pages is prefixed `page_002`, and two
concrete completion orders collect permuted results. -/
theorem pdf_task_construction_witness :
    (pdf_tasks [(), ()] "d" "m").get? 1 =
      some ⟨ImageInput.mem (), "d", "m", "페이지 " ++ toString (1 + 1),
        "page_" ++ pyFormat03d (1 + 1)⟩
    ∧ (runOrdered procOkAll (pdf_tasks [(), ()] "d" "m") [1, 0]).Perm
        (runOrdered procOkAll (pdf_tasks [(), ()] "d" "m") [0, 1]) :=
  ⟨(pdf_task_construction Unit [(), ()] "d" "m").2.1 1,
    (pdf_task_construction Unit [(), ()] "d" "m").2.2 procOkAll [1, 0] [0, 1]
      (by decide) (by decide)⟩

/-! ## C1: batch aggregation -/

/-- C1: after all items complete, the dispatcher returns the output
directory exactly when some collected outcome has `success = true` and
`None` exactly when every collected outcome failed; in particular a
batch containing a succeeding item and a failing item reports overall
success and the result set contains both outcomes, and they are
distinct. -/
theorem pdf_batch_aggregation :
    ∀ (Img : Type) (proc : WorkItem Img → Except String Outcome) (images : List Img)
      (order : List Nat) (output_dir ocr_mode : String),
      order.Perm (List.range (pdf_tasks images output_dir ocr_mode).length) →
      (process_pdf_parallel proc (some images) order output_dir ocr_mode = some output_dir ↔
        ∃ r ∈ runOrdered proc (pdf_tasks images output_dir ocr_mode) order, r.success = true)
      ∧ (process_pdf_parallel proc (some images) order output_dir ocr_mode = none ↔
        ∀ r ∈ runOrdered proc (pdf_tasks images output_dir ocr_mode) order, r.success = false)
      ∧ (∀ t₁ ∈ pdf_tasks images output_dir ocr_mode,
          ∀ t₂ ∈ pdf_tasks images output_dir ocr_mode,
          (futureStep proc t₁).success = true → (futureStep proc t₂).success = false →
          process_pdf_parallel proc (some images) order output_dir ocr_mode = some output_dir
          ∧ futureStep proc t₁ ∈ runOrdered proc (pdf_tasks images output_dir ocr_mode) order
          ∧ futureStep proc t₂ ∈ runOrdered proc (pdf_tasks images output_dir ocr_mode) order
          ∧ futureStep proc t₁ ≠ futureStep proc t₂) := by
  intro Img proc images order output_dir ocr_mode hperm
  have hcnt : 0 < (runOrdered proc (pdf_tasks images output_dir ocr_mode) order).countP
        (fun r => r.success) ↔
      ∃ r ∈ runOrdered proc (pdf_tasks images output_dir ocr_mode) order, r.success = true :=
    List.countP_pos_iff
  have hmain : process_pdf_parallel proc (some images) order output_dir ocr_mode =
      (if 0 < (runOrdered proc (pdf_tasks images output_dir ocr_mode) order).countP
          (fun r => r.success)
        then some output_dir else none) := rfl
  refine ⟨?_, ?_, ?_⟩
  · rw [hmain]
    constructor
    · intro h
      by_cases hc : 0 < (runOrdered proc (pdf_tasks images output_dir ocr_mode) order).countP
          (fun r => r.success)
      · exact hcnt.mp hc
      · rw [if_neg hc] at h
        cases h
    · intro h
      rw [if_pos (hcnt.mpr h)]
  · rw [hmain]
    constructor
    · intro h r hr
      by_cases hc : 0 < (runOrdered proc (pdf_tasks images output_dir ocr_mode) order).countP
          (fun r => r.success)
      · rw [if_pos hc] at h
        cases h
      · cases hs : r.success
        · rfl
        · exact absurd (hcnt.mpr ⟨r, hr, hs⟩) hc
    · intro h
      rw [if_neg fun hc => ?_]
      obtain ⟨r, hr, hs⟩ := hcnt.mp hc
      rw [h r hr] at hs
      cases hs
  · intro t₁ h₁ t₂ h₂ hs₁ hs₂
    have hpr := runOrdered_perm proc (pdf_tasks images output_dir ocr_mode) hperm
    have hm₁ : futureStep proc t₁ ∈ runOrdered proc (pdf_tasks images output_dir ocr_mode) order :=
      hpr.mem_iff.mpr (List.mem_map_of_mem _ h₁)
    have hm₂ : futureStep proc t₂ ∈ runOrdered proc (pdf_tasks images output_dir ocr_mode) order :=
      hpr.mem_iff.mpr (List.mem_map_of_mem _ h₂)
    refine ⟨?_, hm₁, hm₂, ?_⟩
    · rw [hmain, if_pos (hcnt.mpr ⟨_, hm₁, hs₁⟩)]
    · intro heq
      rw [heq, hs₂] at hs₁
      cases hs₁

/-- C1 witness: a two-page batch with one success and one failure
reports overall success, and both outcomes appear distinctly in the
collected results. -/
theorem pdf_batch_aggregation_witness :
    process_pdf_parallel procMixed (some [(), ()]) [1, 0] "d" "m" = some "d"
    ∧ futureStep procMixed ⟨ImageInput.mem (), "d", "m", "페이지 1", "page_001"⟩ ∈
        runOrdered procMixed (pdf_tasks [(), ()] "d" "m") [1, 0]
    ∧ futureStep procMixed ⟨ImageInput.mem (), "d", "m", "페이지 2", "page_002"⟩ ∈
        runOrdered procMixed (pdf_tasks [(), ()] "d" "m") [1, 0]
    ∧ futureStep procMixed ⟨ImageInput.mem (), "d", "m", "페이지 1", "page_001"⟩ ≠
        futureStep procMixed ⟨ImageInput.mem (), "d", "m", "페이지 2", "page_002"⟩ :=
  (pdf_batch_aggregation Unit procMixed [(), ()] [1, 0] "d" "m" (by decide)).2.2
    ⟨ImageInput.mem (), "d", "m", "페이지 1", "page_001"⟩ (by decide)
    ⟨ImageInput.mem (), "d", "m", "페이지 2", "page_002"⟩ (by decide)
    (by decide) (by decide)

/-! ## C2: the dispatcher's overall contract -/

/-- C2: `process_file` always returns an output directory or `None`
(total by construction); a missing source file halts with `None` before
any dispatch; any returned directory is the computed output directory;
and a single supported image whose item processing succeeds yields that
output directory. -/
theorem process_file_contract :
    ∀ (Img : Type) (env : OcrEnv Img) (converted : Option (List Img)) (order : List Nat)
      (timestamp file_path ocr_mode : String) (w : Nat),
      process_file env converted order false timestamp file_path ocr_mode w = none
      ∧ (∀ d, process_file env converted order true timestamp file_path ocr_mode w = some d →
          d = get_output_directory timestamp file_path "test_result")
      ∧ (is_pdf_file file_path = false → is_image_file file_path = true →
          ((process_single_image env (ImageInput.path file_path)
              (get_output_directory timestamp file_path "test_result") ocr_mode
              (pySplitext (pyBasename file_path)).1
              (pySplitext (pyBasename file_path)).1).1).success = true →
          process_file env converted order true timestamp file_path ocr_mode w =
            some (get_output_directory timestamp file_path "test_result")) := by
  intro Img env converted order timestamp file_path ocr_mode w
  refine ⟨rfl, ?_, ?_⟩
  · intro d h
    simp only [process_file, process_pdf_parallel, process_image_file, if_true, if_false] at h
    repeat' split at h
    all_goals first
      | exact Option.noConfusion h
      | (injection h with h2; exact h2.symm)
  · intro hp hi hs
    simp [process_file, process_image_file, hp, hi, hs]

/-- C2 witness: a supported single image whose processing succeeds. -/
theorem process_file_contract_witness :
    process_file ocrEnvSample none [] true "250101_120000" "a.png" "image_to_string" 1 =
      some (get_output_directory "250101_120000" "a.png" "test_result") :=
  (process_file_contract Unit ocrEnvSample none [] "250101_120000" "a.png"
      "image_to_string" 1).2.2 (by decide) (by decide) (by decide)

/-! ## C8: classification by extension -/

/-- A lower-cased suffix test succeeds exactly when the path splits into
a prefix and a suffix whose lower-casing is the target. -/
theorem pyEndsWith_lower_iff (p t : String) :
    pyEndsWith (pyLower p) t = true ↔ ∃ a b : String, p = a ++ b ∧ pyLower b = t := by
  unfold pyEndsWith
  rw [decide_eq_true_iff]
  constructor
  · rintro ⟨s, hs⟩
    have hs' : s ++ t.data = p.data.map pyLowerChar := hs
    refine ⟨String.mk (p.data.take s.length), String.mk (p.data.drop s.length), ?_, ?_⟩
    · exact (congrArg String.mk (List.take_append_drop s.length p.data)).symm
    · apply String.ext
      show (p.data.drop s.length).map pyLowerChar = t.data
      rw [List.map_drop, ← hs']
      exact List.drop_left s t.data
  · rintro ⟨a, b, rfl, hb⟩
    have hb' : b.data.map pyLowerChar = t.data := congrArg String.data hb
    show t.data <:+ ((a ++ b).data.map pyLowerChar)
    rw [String.data_append, List.map_append, hb']
    exact List.suffix_append _ _

/-- C8: classification is by extension, case-insensitively: a path is
classified PDF exactly when it ends (in any letter case) in `.pdf`, and
image exactly when it ends in one of the supported image extensions; a
PDF path takes the PDF branch, an image path the single-image branch,
and an existing path matching neither returns `None` without invoking
either branch (the result is `None` for every processing environment). -/
theorem classification_by_extension :
    (∀ p : String, is_pdf_file p = true ↔ ∃ a b : String, p = a ++ b ∧ pyLower b = ".pdf")
    ∧ (∀ p : String, is_image_file p = true ↔
        ∃ a b : String, p = a ++ b ∧ pyLower b ∈ image_extensions)
    ∧ (∀ (Img : Type) (env : OcrEnv Img) (converted : Option (List Img)) (order : List Nat)
        (ts p mode : String) (w : Nat), is_pdf_file p = true →
        process_file env converted order true ts p mode w =
          process_pdf_parallel (imgProc env) converted order
            (get_output_directory ts p "test_result") mode)
    ∧ (∀ (Img : Type) (env : OcrEnv Img) (converted : Option (List Img)) (order : List Nat)
        (ts p mode : String) (w : Nat), is_pdf_file p = false → is_image_file p = true →
        process_file env converted order true ts p mode w =
          process_image_file env p (get_output_directory ts p "test_result") mode)
    ∧ (∀ (Img : Type) (env : OcrEnv Img) (converted : Option (List Img)) (order : List Nat)
        (ts p mode : String) (w : Nat), is_pdf_file p = false → is_image_file p = false →
        process_file env converted order true ts p mode w = none) := by
  refine ⟨?_, ?_, ?_, ?_, ?_⟩
  · intro p
    exact pyEndsWith_lower_iff p ".pdf"
  · intro p
    unfold is_image_file
    rw [List.any_eq_true]
    constructor
    · rintro ⟨ext, hext, hend⟩
      obtain ⟨a, b, hab, hb⟩ := (pyEndsWith_lower_iff p ext).mp hend
      exact ⟨a, b, hab, by rw [hb]; exact hext⟩
    · rintro ⟨a, b, rfl, hb⟩
      exact ⟨pyLower b, hb, (pyEndsWith_lower_iff (a ++ b) (pyLower b)).mpr ⟨a, b, rfl, rfl⟩⟩
  · intro Img env converted order ts p mode w hp
    simp [process_file, hp]
  · intro Img env converted order ts p mode w hp hi
    simp [process_file, hp, hi]
  · intro Img env converted order ts p mode w hp hi
    simp [process_file, hp, hi]

/-- C8 witness: upper-case extensions classify correctly; a PDF path
takes the PDF branch, and an unsupported extension yields `None`. -/
theorem classification_by_extension_witness :
    is_pdf_file "report.PDF" = true
    ∧ is_image_file "scan.JPG" = true
    ∧ process_file ocrEnvSample none [] true "ts" "report.PDF" "m" 1 =
        process_pdf_parallel (imgProc ocrEnvSample) none []
          (get_output_directory "ts" "report.PDF" "test_result") "m"
    ∧ process_file ocrEnvSample none [] true "ts" "notes.xyz" "m" 1 = none :=
  ⟨(classification_by_extension.1 "report.PDF").mpr ⟨"report", ".PDF", by decide, by decide⟩,
    (classification_by_extension.2.1 "scan.JPG").mpr ⟨"scan", ".JPG", by decide, by decide⟩,
    classification_by_extension.2.2.1 Unit ocrEnvSample none [] "ts" "report.PDF" "m" 1
      (by decide),
    classification_by_extension.2.2.2.2 Unit ocrEnvSample none [] "ts" "notes.xyz" "m" 1
      (by decide) (by decide)⟩

/-! ## C9: the spreadsheet pipeline -/

/-- Every task built for row `r` carries row `r`. -/
theorem rowTasks_fst {ws : Sheet} {r : Nat} {t : Nat × Nat × String}
    (h : t ∈ rowTasks ws r) : t.1 = r := by
  unfold rowTasks at h
  rw [List.mem_append] at h
  rcases h with h | h
  · split at h
    · rw [List.mem_singleton] at h
      subst h
      rfl
    · cases h
  · split at h
    · rw [List.mem_singleton] at h
      subst h
      rfl
    · cases h

/-- One row contributes at most one task per target column. -/
theorem rowTasks_keys_nodup (ws : Sheet) (r : Nat) :
    ((rowTasks ws r).map taskKey).Nodup := by
  unfold rowTasks
  split <;> split <;> simp [taskKey]

/-- Tasks built from distinct rows have pairwise distinct
(row, target-column) keys. -/
theorem flatMap_rowTasks_keys_nodup (ws : Sheet) :
    ∀ rows : List Nat, rows.Nodup →
      ((rows.flatMap (rowTasks ws)).map taskKey).Nodup := by
  intro rows
  induction rows with
  | nil => intro _; simp
  | cons r rest ih =>
    intro hnd
    rw [List.flatMap_cons, List.map_append, List.nodup_append]
    refine ⟨rowTasks_keys_nodup ws r, ih (List.Nodup.of_cons hnd), ?_⟩
    intro k hk1 hk2
    obtain ⟨t1, ht1, hkeq1⟩ := List.mem_map.mp hk1
    obtain ⟨t2, ht2, hkeq2⟩ := List.mem_map.mp hk2
    obtain ⟨r2, hr2, ht2'⟩ := List.mem_flatMap.mp ht2
    have h1 : k.1 = r := by rw [← hkeq1]; exact rowTasks_fst ht1
    have h2 : k.1 = r2 := by rw [← hkeq2]; exact rowTasks_fst ht2'
    have hrr : r = r2 := h1.symm.trans h2
    exact (List.nodup_cons.mp hnd).1 (hrr ▸ hr2)

/-- The full task list has pairwise distinct (row, target-column) keys:
each source cell produces at most one task. -/
theorem excel_tasks_keys_nodup (ws : Sheet) : ((excel_tasks ws).map taskKey).Nodup :=
  flatMap_rowTasks_keys_nodup ws _ (List.nodup_range' 2 (ws.maxRow - 1))

/-- Cells that are no task's target are untouched by the write loop. -/
theorem foldl_applyTask_untouched (llm : LlmRun) :
    ∀ (l : List (Nat × Nat × String)) (ws : Sheet) (r c : Nat),
      (∀ t ∈ l, ¬(r = t.1 ∧ c = t.2.1)) →
      (l.foldl (applyTask llm) ws).cell r c = ws.cell r c := by
  intro l
  induction l with
  | nil => intro ws r c _; rfl
  | cons t rest ih =>
    intro ws r c h
    rw [List.foldl_cons]
    rw [ih (applyTask llm ws t) r c fun u hu => h u (List.mem_cons_of_mem t hu)]
    show (if r = t.1 ∧ c = t.2.1 then some (taskResult llm t) else ws.cell r c) = ws.cell r c
    rw [if_neg (h t (List.mem_cons_self t rest))]

/-- With pairwise distinct keys, each task's target cell ends up holding
exactly that task's result, whatever the completion order. -/
theorem foldl_applyTask_mem (llm : LlmRun) :
    ∀ (l : List (Nat × Nat × String)) (ws : Sheet) (t : Nat × Nat × String),
      (l.map taskKey).Nodup → t ∈ l →
      (l.foldl (applyTask llm) ws).cell t.1 t.2.1 = some (taskResult llm t) := by
  intro l
  induction l with
  | nil => intro ws t _ h; cases h
  | cons u rest ih =>
    intro ws t hnd hmem
    rw [List.foldl_cons]
    rcases List.mem_cons.mp hmem with rfl | hmem'
    · have hkey : taskKey t ∉ rest.map taskKey := (List.nodup_cons.mp hnd).1
      rw [foldl_applyTask_untouched llm rest (applyTask llm ws t) t.1 t.2.1 ?_]
      · show (if t.1 = t.1 ∧ t.2.1 = t.2.1 then some (taskResult llm t) else ws.cell t.1 t.2.1) =
          some (taskResult llm t)
        rw [if_pos ⟨rfl, rfl⟩]
      · intro v hv hc
        have hvk : taskKey v = taskKey t := by simp [taskKey, hc.1, hc.2]
        exact hkey (hvk ▸ List.mem_map_of_mem taskKey hv)
    · exact ih (applyTask llm ws u) t (List.Nodup.of_cons hnd) hmem'

/-- C9: one task is created per non-blank source cell (column 2 paired
with target 3, column 4 with target 5, rows 2..N), task keys are
pairwise distinct, and — for any completion order — each task's target
cell of the saved workbook holds that task's result: `ERROR: <message>`
when its call raised, `extract_first_json` of the response (possibly the
empty string) when it returned; cells that are no task's target keep
their loaded value, and the workbook returned is the single one saved
after all tasks completed. -/
theorem process_excel_contract :
    ∀ (ws : Sheet) (llm : LlmRun) (order : List Nat),
      (1 ≤ ws.maxRow →
        ∀ t : Nat × Nat × String, t ∈ excel_tasks ws ↔
          ∃ r, 2 ≤ r ∧ r ≤ ws.maxRow ∧
            ((cellText ws r 2 ≠ "" ∧ t = (r, 3, mkPrompt (cellText ws r 2))) ∨
             (cellText ws r 4 ≠ "" ∧ t = (r, 5, mkPrompt (cellText ws r 4)))))
      ∧ ((excel_tasks ws).map taskKey).Nodup
      ∧ (order.Perm (List.range (excel_tasks ws).length) →
          ∀ t ∈ excel_tasks ws,
            (process_excel llm order ws).cell t.1 t.2.1 = some (taskResult llm t)
            ∧ (∀ e, llm t = Except.error e →
                (process_excel llm order ws).cell t.1 t.2.1 = some ("ERROR: " ++ e))
            ∧ (∀ resp, llm t = Except.ok resp →
                (process_excel llm order ws).cell t.1 t.2.1 =
                  some (extract_first_json resp)))
      ∧ (order.Perm (List.range (excel_tasks ws).length) →
          ∀ r c : Nat, (∀ t ∈ excel_tasks ws, ¬(r = t.1 ∧ c = t.2.1)) →
            (process_excel llm order ws).cell r c = ws.cell r c) := by
  intro ws llm order
  refine ⟨?_, excel_tasks_keys_nodup ws, ?_, ?_⟩
  · intro hmax t
    unfold excel_tasks
    rw [List.mem_flatMap]
    constructor
    · rintro ⟨r, hr, ht⟩
      rw [List.mem_range'_1] at hr
      refine ⟨r, hr.1, by omega, ?_⟩
      unfold rowTasks at ht
      rw [List.mem_append] at ht
      rcases ht with h | h
      · split at h
        · rw [List.mem_singleton] at h
          exact Or.inl ⟨by assumption, h⟩
        · cases h
      · split at h
        · rw [List.mem_singleton] at h
          exact Or.inr ⟨by assumption, h⟩
        · cases h
    · rintro ⟨r, h2, hle, hcase⟩
      refine ⟨r, ?_, ?_⟩
      · rw [List.mem_range'_1]
        omega
      · unfold rowTasks
        rw [List.mem_append]
        rcases hcase with ⟨hne, rfl⟩ | ⟨hne, rfl⟩
        · exact Or.inl (by rw [if_pos hne]; exact List.mem_singleton.mpr rfl)
        · exact Or.inr (by rw [if_pos hne]; exact List.mem_singleton.mpr rfl)
  · intro hperm t hmem
    have hl : (order.filterMap fun i => (excel_tasks ws).get? i).Perm (excel_tasks ws) := by
      have h2 := List.Perm.filterMap (fun i => (excel_tasks ws).get? i) hperm
      rwa [filterMap_get?_range'] at h2
    have hnd : ((order.filterMap fun i => (excel_tasks ws).get? i).map taskKey).Nodup :=
      (hl.map taskKey).nodup_iff.mpr (excel_tasks_keys_nodup ws)
    have hmem' : t ∈ order.filterMap fun i => (excel_tasks ws).get? i := hl.mem_iff.mpr hmem
    have hcell : (process_excel llm order ws).cell t.1 t.2.1 = some (taskResult llm t) :=
      foldl_applyTask_mem llm _ ws t hnd hmem'
    refine ⟨hcell, ?_, ?_⟩
    · intro e he
      rw [hcell]
      unfold taskResult
      rw [he]
    · intro resp hr
      rw [hcell]
      unfold taskResult
      rw [hr]
  · intro hperm r c h
    have hl : (order.filterMap fun i => (excel_tasks ws).get? i).Perm (excel_tasks ws) := by
      have h2 := List.Perm.filterMap (fun i => (excel_tasks ws).get? i) hperm
      rwa [filterMap_get?_range'] at h2
    exact foldl_applyTask_untouched llm _ ws r c fun t ht => h t (hl.mem_iff.mp ht)

/-- C9 witness: a one-task sheet whose task raises gets the `ERROR:`
marker written into its target cell C2. -/
theorem process_excel_contract_witness :
    (process_excel llmSample [0] sheetSample).cell 2 3 = some ("ERROR: " ++ "boom") :=
  (((process_excel_contract sheetSample llmSample [0]).2.2.1 (by decide)
      (2, 3, mkPrompt (cellText sheetSample 2 2)) (by decide)).2.1 "boom" rfl)
